import Mathlib

/-!
Verification of the real-time collaboration session manager of the
collab-notes-api backend.  The definitions below are a shallow embedding of
`src/sockets/socketHandler.ts` and of `Note.isUserAuthorized` from
`src/models/Note.ts`; the theorems settle the specified properties of the
join/leave/disconnect/update state machine.
-/

namespace CollabNotes

/-- Authenticated identity attached to a socket (interface `AuthPayload`). -/
structure AuthPayload where
  userId : String
  username : String
  email : String
deriving DecidableEq, Repr

/-- A member record stored in a room (interface `SocketUser`). -/
structure SocketUser where
  userId : String
  username : String
  socketId : String
deriving DecidableEq, Repr

/-- A room entry of the `noteRooms` map (interface `NoteRoom`). -/
structure NoteRoom where
  noteId : String
  users : List SocketUser
deriving DecidableEq, Repr

/-- The public shape `\x7b userId, username \x7d` used in notification payloads. -/
structure Identity where
  userId : String
  username : String
deriving DecidableEq, Repr

def SocketUser.identity (u : SocketUser) : Identity :=
  ⟨u.userId, u.username⟩

def AuthPayload.identity (a : AuthPayload) : Identity :=
  ⟨a.userId, a.username⟩

/-- `room.users.map(u => (\x7b userId: u.userId, username: u.username \x7d))`. -/
def roster (users : List SocketUser) : List Identity :=
  users.map SocketUser.identity

/-- Collaborator role (`role: read | write` in the Note schema). -/
inductive Role where
  | read
  | write
deriving DecidableEq, Repr

/-- A collaborator entry of a note (timestamp field omitted: it is never
consulted by any logic). -/
structure Collaborator where
  user : String
  role : Role
deriving DecidableEq, Repr

/-- The fields of a note consulted by the authorization check. -/
structure Note where
  owner : String
  collaborators : List Collaborator
deriving DecidableEq, Repr

/-- `noteSchema.methods.isUserAuthorized` from `src/models/Note.ts`:
owner has full access; otherwise look up the collaborator entry; read is
granted to any collaborator, write only to collaborators with role write. -/
def Note.isUserAuthorized (note : Note) (userId : String)
    (requiredRole : Role) : Bool :=
  if note.owner = userId then
    true
  else
    match note.collaborators.find? (fun c => c.user = userId) with
    | none => false
    | some collaborator =>
      if requiredRole = Role.read then
        true
      else
        decide (collaborator.role = Role.write)

/-- Association list modelling a JS `Map` (unique keys, insertion order). -/
def mapGet {α : Type} (m : List (String × α)) (k : String) : Option α :=
  match m with
  | [] => none
  | (k2, v) :: rest => if k2 = k then some v else mapGet rest k

/-- `Map.set`: overwrite the existing binding in place, else append. -/
def mapSet {α : Type} (m : List (String × α)) (k : String) (v : α) :
    List (String × α) :=
  match m with
  | [] => [(k, v)]
  | (k2, v2) :: rest =>
    if k2 = k then (k, v) :: rest else (k2, v2) :: mapSet rest k v

/-- `Map.delete`: remove the binding for the key. -/
def mapDelete {α : Type} (m : List (String × α)) (k : String) :
    List (String × α) :=
  match m with
  | [] => []
  | (k2, v) :: rest =>
    if k2 = k then rest else (k2, v) :: mapDelete rest k

/-- Outbound notification payloads of the socket layer (the `timestamp`
field of note-updated, an opaque wall-clock read, is omitted). -/
inductive Payload where
  | userJoined (user : Identity) (activeUsers : List Identity)
  | joinedNote (noteId : String) (activeUsers : List Identity)
  | userLeft (userId : String) (activeUsers : List Identity)
  | noteUpdated (noteId : String) (content : String) (title : Option String)
      (modifiedBy : Identity)
  | cursorUpdated (user : Identity) (position : Int)
      (selection : Option (Int × Int))
  | errorMsg (message : String)
deriving DecidableEq, Repr

/-- One delivery instruction: `socket.emit` (to one connection),
`socket.to(room).emit` (to the room minus the sender), or
`io.to(room).emit` (to the whole room). -/
inductive Emit where
  | toSocket (socketId : String) (p : Payload)
  | toRoomExceptSender (roomName : String) (senderId : String) (p : Payload)
  | toRoom (roomName : String) (p : Payload)
deriving DecidableEq, Repr

/-- A connected socket: its id, its authenticated user, and the set of
transport rooms it has joined (`socket.rooms`, which always contains the
room named by the socket id itself). -/
structure Socket where
  id : String
  user : AuthPayload
  rooms : List String
deriving DecidableEq, Repr

/-- The module-level mutable state of `socketHandler.ts`:
`noteRooms : Map<string, NoteRoom>` and `userSockets : Map<string, string>`. -/
structure ServerState where
  noteRooms : List (String × NoteRoom)
  userSockets : List (String × String)
deriving DecidableEq, Repr

def initialState : ServerState := ⟨[], []⟩

/-- The room name `note:$\x7b noteId \x7d`. -/
def noteRoomName (noteId : String) : String := "note:" ++ noteId

/-- The check `room.startsWith(\x27note:\x27)`, stated on the character list. -/
def isNoteRoom (r : String) : Bool := r.data.take 5 = "note:".data

/-- `room.replace(\x27note:\x27, \x27\x27)`: under the guard `isNoteRoom r`
the first occurrence of the tag is at position 0, so this is dropping the
five tag characters. -/
def noteIdOfRoomName (r : String) : String := ⟨r.data.drop 5⟩

/-- Helper `handleUserLeaveRoom(noteId, userId, io)`: remove the user from
the room by userId, delete the room if it became empty, otherwise broadcast
`user-left` with the post-removal roster to the room. -/
def handleUserLeaveRoom (noteId : String) (userId : String)
    (st : ServerState) : ServerState × List Emit :=
  match mapGet st.noteRooms noteId with
  | none => (st, [])
  | some room =>
    let users := room.users.filter (fun u => u.userId ≠ userId)
    if users.length = 0 then
      ({ st with noteRooms := mapDelete st.noteRooms noteId }, [])
    else
      ({ st with noteRooms := mapSet st.noteRooms noteId { room with users := users } },
       [Emit.toRoom (noteRoomName noteId) (Payload.userLeft userId (roster users))])

/-- The guard of the join handler:
`!note || !note.isUserAuthorized(socket.user.userId, \x27read\x27)`. -/
def joinDenied (note? : Option Note) (userId : String) : Bool :=
  match note? with
  | none => true
  | some note => !(note.isUserAuthorized userId Role.read)

/-- The guard of the note-update handler:
`!note || !note.isUserAuthorized(socket.user.userId, \x27write\x27)`. -/
def updateDenied (note? : Option Note) (userId : String) : Bool :=
  match note? with
  | none => true
  | some note => !(note.isUserAuthorized userId Role.write)

/-- One iteration of the room-switch loop of the join handler: if the room
name carries the note tag, `socket.leave` it and run `handleUserLeaveRoom`
on the embedded noteId; otherwise skip it. -/
def leaveStep (uid : String) (acc : ServerState × Socket × List Emit)
    (r : String) : ServerState × Socket × List Emit :=
  if isNoteRoom r then
    let step := handleUserLeaveRoom (noteIdOfRoomName r) uid acc.1
    (step.1,
     { acc.2.1 with rooms := acc.2.1.rooms.filter (fun x => x ≠ r) },
     acc.2.2 ++ step.2)
  else acc

/-- The room-switch loop of the join handler, iterated over every transport
room other than the private id room. -/
def leaveAllNoteRooms (st : ServerState) (socket : Socket) :
    ServerState × Socket × List Emit :=
  (socket.rooms.filter (fun r => r ≠ socket.id)).foldl
    (leaveStep socket.user.userId) (st, socket, [])

/-- `room.users.findIndex(u => u.userId === userId)` followed by either the
in-place socketId overwrite or the push of a fresh member record. -/
def upsertUser (users : List SocketUser) (user : AuthPayload)
    (socketId : String) : List SocketUser :=
  match users with
  | [] => [⟨user.userId, user.username, socketId⟩]
  | u :: rest =>
    if u.userId = user.userId then
      { u with socketId := socketId } :: rest
    else
      u :: upsertUser rest user socketId

/-- The create-or-fetch plus upsert stage of the join handler: create the
room entry when absent, then upsert the joining user into it.  Returns the
new state together with the post-insert member list. -/
def joinInsert (st1 : ServerState) (socket : Socket) (noteId : String) :
    ServerState × List SocketUser :=
  let st2 :=
    match mapGet st1.noteRooms noteId with
    | none => { st1 with noteRooms := mapSet st1.noteRooms noteId ⟨noteId, []⟩ }
    | some _ => st1
  let room := (mapGet st2.noteRooms noteId).getD ⟨noteId, []⟩
  let users2 := upsertUser room.users socket.user socket.id
  ({ st2 with noteRooms := mapSet st2.noteRooms noteId { room with users := users2 } },
   users2)

/-- The `join-note` handler.  `note?` is the result of the external
`Note.findById(noteId)` lookup.  Returns the new server state, the updated
socket, and the emitted notifications in order. -/
def joinNote (st : ServerState) (socket : Socket) (noteId : String)
    (note? : Option Note) : ServerState × Socket × List Emit :=
  if joinDenied note? socket.user.userId then
    (st, socket, [Emit.toSocket socket.id (Payload.errorMsg "Access denied to this note")])
  else
    let lv := leaveAllNoteRooms st socket
    let roomName := noteRoomName noteId
    let sock2 := { lv.2.1 with rooms :=
      if roomName ∈ lv.2.1.rooms then lv.2.1.rooms else lv.2.1.rooms ++ [roomName] }
    let ins := joinInsert lv.1 socket noteId
    (ins.1, sock2,
      lv.2.2 ++
      [Emit.toRoomExceptSender roomName socket.id
        (Payload.userJoined socket.user.identity (roster ins.2)),
       Emit.toSocket socket.id (Payload.joinedNote noteId (roster ins.2))])

/-- The `leave-note` handler: `socket.leave` the transport room, then
`handleUserLeaveRoom`. -/
def leaveNote (st : ServerState) (socket : Socket) (noteId : String) :
    ServerState × Socket × List Emit :=
  let roomName := noteRoomName noteId
  let sock := { socket with rooms := socket.rooms.filter (fun x => x ≠ roomName) }
  let step := handleUserLeaveRoom noteId socket.user.userId st
  (step.1, sock, step.2)

/-- The `note-update` handler: check write authorization against the looked
up note, then broadcast `note-updated` to the room minus the sender.  The
handler performs no membership check on the sender. -/
def noteUpdate (st : ServerState) (socket : Socket) (noteId : String)
    (content : String) (title : Option String) (note? : Option Note) :
    ServerState × List Emit :=
  if updateDenied note? socket.user.userId then
    (st, [Emit.toSocket socket.id (Payload.errorMsg "Write access denied")])
  else
    (st, [Emit.toRoomExceptSender (noteRoomName noteId) socket.id
      (Payload.noteUpdated noteId content title socket.user.identity)])

/-- The `cursor-update` handler: unconditionally broadcast `cursor-updated`
to the room minus the sender; no lookup and no check of any kind. -/
def cursorUpdate (st : ServerState) (socket : Socket) (noteId : String)
    (position : Int) (selection : Option (Int × Int)) :
    ServerState × List Emit :=
  (st, [Emit.toRoomExceptSender (noteRoomName noteId) socket.id
    (Payload.cursorUpdated socket.user.identity position selection)])

/-- One iteration of the disconnect cleanup loop: run `handleUserLeaveRoom`
for a tagged transport room, skip any other room. -/
def discStep (uid : String) (acc : ServerState × List Emit) (r : String) :
    ServerState × List Emit :=
  if isNoteRoom r then
    let step := handleUserLeaveRoom (noteIdOfRoomName r) uid acc.1
    (step.1, acc.2 ++ step.2)
  else acc

/-- The `disconnect` handler: run `handleUserLeaveRoom` for every tagged
transport room the socket is in, then drop the userSockets binding. -/
def disconnect (st : ServerState) (socket : Socket) : ServerState × List Emit :=
  let res := (socket.rooms.filter (fun r => r ≠ socket.id)).foldl
    (discStep socket.user.userId) (st, [])
  ({ res.1 with userSockets := mapDelete res.1.userSockets socket.user.userId },
   res.2)

/-- `getActiveUsersInNote`: the raw member records of the room, or the empty
list when the room does not exist. -/
def getActiveUsersInNote (st : ServerState) (noteId : String) :
    List SocketUser :=
  match mapGet st.noteRooms noteId with
  | some room => room.users
  | none => []

/-- The userIds present in a room of the state. -/
def memberIds (st : ServerState) (noteId : String) : List String :=
  (getActiveUsersInNote st noteId).map SocketUser.userId

/-- One inbound socket event, carrying the originating socket and the
result of any external note lookup the handler performs. -/
inductive Op where
  | join (socket : Socket) (noteId : String) (note? : Option Note)
  | leave (socket : Socket) (noteId : String)
  | disc (socket : Socket)
  | update (socket : Socket) (noteId : String) (content : String)
      (title : Option String) (note? : Option Note)
  | cursor (socket : Socket) (noteId : String) (position : Int)
      (selection : Option (Int × Int))

/-- The server-state effect of one event. -/
def applyOp (st : ServerState) (op : Op) : ServerState :=
  match op with
  | .join socket noteId note? => (joinNote st socket noteId note?).1
  | .leave socket noteId => (leaveNote st socket noteId).1
  | .disc socket => (disconnect st socket).1
  | .update socket noteId content title note? =>
      (noteUpdate st socket noteId content title note?).1
  | .cursor socket noteId position selection =>
      (cursorUpdate st socket noteId position selection).1

/-- The server state after a finite sequence of events. -/
def run (st : ServerState) (ops : List Op) : ServerState :=
  ops.foldl applyOp st

/-! ### Lemmas about the map embedding -/

theorem mapGet_mapSet {α : Type} (m : List (String × α)) (k v k') :
    mapGet (mapSet m k v) k' = if k = k' then some v else mapGet m k' := by
  induction m with
  | nil =>
    by_cases h : k = k' <;> simp [mapSet, mapGet, h]
  | cons p rest ih =>
    obtain ⟨k2, w⟩ := p
    by_cases h2 : k2 = k
    · subst h2
      by_cases h : k2 = k' <;> simp [mapSet, mapGet, h]
    · by_cases h : k2 = k'
      · subst h
        have hk : ¬ k = k2 := fun hh => h2 hh.symm
        simp [mapSet, mapGet, h2, hk]
      · simp [mapSet, mapGet, h2, h, ih]

theorem mapGet_mapSet_self {α : Type} (m : List (String × α)) (k v) :
    mapGet (mapSet m k v) k = some v := by
  simp [mapGet_mapSet]

theorem mapGet_mapSet_ne {α : Type} (m : List (String × α)) (k v k')
    (h : k ≠ k') : mapGet (mapSet m k v) k' = mapGet m k' := by
  simp [mapGet_mapSet, h]

theorem mapGet_mapDelete_ne {α : Type} (m : List (String × α)) (k k')
    (h : k' ≠ k) : mapGet (mapDelete m k) k' = mapGet m k' := by
  induction m with
  | nil => simp [mapDelete]
  | cons p rest ih =>
    obtain ⟨k2, w⟩ := p
    by_cases h2 : k2 = k
    · subst h2
      have hk : ¬ k2 = k' := fun hh => h (hh.symm)
      simp [mapDelete, mapGet, hk]
    · by_cases h3 : k2 = k' <;> simp [mapDelete, mapGet, h2, h3, h, ih]

theorem mapGet_eq_none_of_not_mem_keys {α : Type} (m : List (String × α)) (k)
    (h : k ∉ m.map Prod.fst) : mapGet m k = none := by
  induction m with
  | nil => simp [mapGet]
  | cons p rest ih =>
    obtain ⟨k2, w⟩ := p
    simp only [List.map_cons, List.mem_cons, not_or] at h
    have : k2 ≠ k := fun hh => h.1 (hh.symm)
    simp [mapGet, this, ih h.2]

theorem mem_keys_of_mapGet {α : Type} (m : List (String × α)) (k v)
    (h : mapGet m k = some v) : k ∈ m.map Prod.fst := by
  induction m with
  | nil => simp [mapGet] at h
  | cons p rest ih =>
    obtain ⟨k2, w⟩ := p
    by_cases h2 : k2 = k
    · simp [h2]
    · simp only [mapGet, if_neg h2] at h
      simp [ih h]

theorem not_mem_keys_of_mapGet_none {α : Type} (m : List (String × α)) (k)
    (h : mapGet m k = none) : k ∉ m.map Prod.fst := by
  intro hmem
  induction m with
  | nil => simp at hmem
  | cons p rest ih =>
    obtain ⟨k2, w⟩ := p
    by_cases h2 : k2 = k
    · simp [mapGet, h2] at h
    · simp only [mapGet, if_neg h2] at h
      simp only [List.map_cons, List.mem_cons] at hmem
      rcases hmem with hmem | hmem
      · exact h2 hmem.symm
      · exact ih h hmem

theorem mapDelete_sublist {α : Type} (m : List (String × α)) (k) :
    (mapDelete m k).Sublist m := by
  induction m with
  | nil => simp [mapDelete]
  | cons p rest ih =>
    obtain ⟨k2, w⟩ := p
    by_cases h2 : k2 = k
    · simp [mapDelete, h2]
    · simpa [mapDelete, h2] using ih.cons₂ (k2, w)

theorem mapGet_mapDelete_self {α : Type} (m : List (String × α)) (k)
    (h : (m.map Prod.fst).Nodup) : mapGet (mapDelete m k) k = none := by
  induction m with
  | nil => simp [mapDelete, mapGet]
  | cons p rest ih =>
    obtain ⟨k2, w⟩ := p
    simp only [List.map_cons, List.nodup_cons] at h
    by_cases h2 : k2 = k
    · subst h2
      simp only [mapDelete, if_pos rfl]
      exact mapGet_eq_none_of_not_mem_keys rest k2 h.1
    · simp [mapDelete, mapGet, h2, ih h.2]

theorem keys_mapSet {α : Type} (m : List (String × α)) (k v) :
    (mapSet m k v).map Prod.fst =
      if k ∈ m.map Prod.fst then m.map Prod.fst else m.map Prod.fst ++ [k] := by
  induction m with
  | nil => simp [mapSet]
  | cons p rest ih =>
    obtain ⟨k2, w⟩ := p
    by_cases h2 : k2 = k
    · subst h2
      simp [mapSet]
    · have : ¬ k = k2 := fun hh => h2 hh.symm
      by_cases hmem : k ∈ rest.map Prod.fst <;>
        simp [mapSet, h2, this, hmem, ih]

theorem nodup_keys_mapSet {α : Type} (m : List (String × α)) (k v)
    (h : (m.map Prod.fst).Nodup) : ((mapSet m k v).map Prod.fst).Nodup := by
  rw [keys_mapSet]
  by_cases hmem : k ∈ m.map Prod.fst
  · rw [if_pos hmem]
    exact h
  · simp only [hmem, if_false]
    simp [List.nodup_append, h, hmem]

theorem mapSet_eq_self {α : Type} (m : List (String × α)) (k v)
    (h : mapGet m k = some v) : mapSet m k v = m := by
  induction m with
  | nil => simp [mapGet] at h
  | cons p rest ih =>
    obtain ⟨k2, w⟩ := p
    by_cases h2 : k2 = k
    · subst h2
      have h4 : w = v := by simpa [mapGet] using h
      subst h4
      simp [mapSet]
    · simp only [mapGet, if_neg h2] at h
      simp [mapSet, h2, ih h]

/-! ### Lemmas about room names and the member-list helpers -/

theorem isNoteRoom_noteRoomName (n : String) :
    isNoteRoom (noteRoomName n) = true := by
  have hd : (noteRoomName n).data = "note:".data ++ n.data := by
    simp [noteRoomName, String.data_append]
  have h5 : "note:".data.length = 5 := by decide
  simp only [isNoteRoom, hd, ← h5, List.take_left, decide_eq_true_eq]

theorem noteIdOfRoomName_noteRoomName (n : String) :
    noteIdOfRoomName (noteRoomName n) = n := by
  have hd : (noteRoomName n).data = "note:".data ++ n.data := by
    simp [noteRoomName, String.data_append]
  have h5 : "note:".data.length = 5 := by decide
  have hdrop : ("note:".data ++ n.data).drop 5 = n.data := by
    rw [← h5, List.drop_left]
  cases n with
  | mk data => simp [noteIdOfRoomName, hd, hdrop]

theorem upsertUser_ne_nil (users : List SocketUser) (user : AuthPayload)
    (sid : String) : upsertUser users user sid ≠ [] := by
  cases users with
  | nil => simp [upsertUser]
  | cons u rest =>
    by_cases h : u.userId = user.userId <;> simp [upsertUser, h]

theorem userIds_upsertUser (users : List SocketUser) (user : AuthPayload)
    (sid : String) :
    (upsertUser users user sid).map SocketUser.userId =
      if user.userId ∈ users.map SocketUser.userId then
        users.map SocketUser.userId
      else
        users.map SocketUser.userId ++ [user.userId] := by
  induction users with
  | nil => simp [upsertUser]
  | cons u rest ih =>
    by_cases h : u.userId = user.userId
    · simp [upsertUser, h]
    · have h2 : ¬ user.userId = u.userId := fun hh => h hh.symm
      by_cases hmem : user.userId ∈ rest.map SocketUser.userId <;>
        simp [upsertUser, h, h2, hmem, ih]

theorem nodup_userIds_upsertUser (users : List SocketUser) (user : AuthPayload)
    (sid : String) (h : (users.map SocketUser.userId).Nodup) :
    ((upsertUser users user sid).map SocketUser.userId).Nodup := by
  rw [userIds_upsertUser]
  by_cases hmem : user.userId ∈ users.map SocketUser.userId
  · rw [if_pos hmem]
    exact h
  · rw [if_neg hmem]
    simp [List.nodup_append, h, hmem]

theorem mem_userIds_upsertUser (users : List SocketUser) (user : AuthPayload)
    (sid : String) :
    user.userId ∈ (upsertUser users user sid).map SocketUser.userId := by
  rw [userIds_upsertUser]
  by_cases hmem : user.userId ∈ users.map SocketUser.userId <;>
    simp [hmem]

theorem map_overwrite_eq_self (l : List SocketUser) (uid sid : String)
    (h : ∀ u ∈ l, u.userId ≠ uid) :
    l.map (fun u => if u.userId = uid then { u with socketId := sid } else u) = l := by
  induction l with
  | nil => simp
  | cons u rest ih =>
    have h1 : u.userId ≠ uid := h u (by simp)
    have h2 : ∀ v ∈ rest, v.userId ≠ uid := fun v hv => h v (by simp [hv])
    simp [h1, ih h2]

theorem upsertUser_of_mem (users : List SocketUser) (user : AuthPayload)
    (sid : String) (hmem : user.userId ∈ users.map SocketUser.userId)
    (hnd : (users.map SocketUser.userId).Nodup) :
    upsertUser users user sid =
      users.map (fun u =>
        if u.userId = user.userId then { u with socketId := sid } else u) := by
  induction users with
  | nil => simp at hmem
  | cons u rest ih =>
    simp only [List.map_cons, List.nodup_cons] at hnd
    by_cases h : u.userId = user.userId
    · have hrest : ∀ v ∈ rest, v.userId ≠ user.userId := by
        intro v hv hvid
        refine hnd.1 ?_
        have huv : u.userId = v.userId := by rw [h, ← hvid]
        rw [huv]
        exact List.mem_map_of_mem _ hv
      have hmap := map_overwrite_eq_self rest user.userId sid hrest
      simp [upsertUser, h, hmap]
    · have hmem2 : user.userId ∈ rest.map SocketUser.userId := by
        simp only [List.map_cons, List.mem_cons] at hmem
        rcases hmem with hmem | hmem
        · exact absurd hmem.symm h
        · exact hmem
      simp [upsertUser, h, ih hmem2 hnd.2]

theorem filter_userId_eq_self (users : List SocketUser) (uid : String)
    (h : uid ∉ users.map SocketUser.userId) :
    users.filter (fun u => u.userId ≠ uid) = users := by
  induction users with
  | nil => simp
  | cons u rest ih =>
    simp only [List.map_cons, List.mem_cons, not_or] at h
    have h1 : u.userId ≠ uid := fun hh => h.1 hh.symm
    have hp : decide (u.userId ≠ uid) = true := by simp [h1]
    simp only [List.filter_cons, hp, if_true]
    rw [ih h.2]

theorem not_mem_userIds_filter (users : List SocketUser) (uid : String) :
    uid ∉ (users.filter (fun u => u.userId ≠ uid)).map SocketUser.userId := by
  intro hmem
  simp only [List.mem_map, List.mem_filter] at hmem
  obtain ⟨u, ⟨_, hne⟩, huid⟩ := hmem
  simp only [ne_eq, decide_not, Bool.not_eq_true', decide_eq_false_iff_not] at hne
  exact hne huid

/-! ### Branch characterizations of the handlers -/

theorem getActiveUsersInNote_of_some (st : ServerState) (n : String)
    (room : NoteRoom) (hg : mapGet st.noteRooms n = some room) :
    getActiveUsersInNote st n = room.users := by
  simp only [getActiveUsersInNote, hg]

theorem getActiveUsersInNote_of_none (st : ServerState) (n : String)
    (hg : mapGet st.noteRooms n = none) :
    getActiveUsersInNote st n = [] := by
  simp only [getActiveUsersInNote, hg]

theorem handleUserLeaveRoom_eq_none (n uid : String) (st : ServerState)
    (hg : mapGet st.noteRooms n = none) :
    handleUserLeaveRoom n uid st = (st, []) := by
  simp only [handleUserLeaveRoom, hg]

theorem handleUserLeaveRoom_eq_del (n uid : String) (st : ServerState)
    (room : NoteRoom) (hg : mapGet st.noteRooms n = some room)
    (hl : room.users.filter (fun u => u.userId ≠ uid) = []) :
    handleUserLeaveRoom n uid st =
      ({ st with noteRooms := mapDelete st.noteRooms n }, []) := by
  have hlen : (room.users.filter (fun u => u.userId ≠ uid)).length = 0 := by
    rw [hl]
    rfl
  simp only [handleUserLeaveRoom, hg]
  rw [if_pos hlen]

theorem handleUserLeaveRoom_eq_set (n uid : String) (st : ServerState)
    (room : NoteRoom) (hg : mapGet st.noteRooms n = some room)
    (hl : room.users.filter (fun u => u.userId ≠ uid) ≠ []) :
    handleUserLeaveRoom n uid st =
      ({ st with noteRooms := mapSet st.noteRooms n { room with users := room.users.filter (fun u => u.userId ≠ uid) } },
       [Emit.toRoom (noteRoomName n) (Payload.userLeft uid (roster (room.users.filter (fun u => u.userId ≠ uid))))]) := by
  have hlen : ¬ (room.users.filter (fun u => u.userId ≠ uid)).length = 0 := by
    intro h0
    exact hl (List.length_eq_zero.mp h0)
  simp only [handleUserLeaveRoom, hg]
  rw [if_neg hlen]

theorem joinInsert_eq_some (st1 : ServerState) (sock : Socket) (n : String)
    (room : NoteRoom) (hg : mapGet st1.noteRooms n = some room) :
    joinInsert st1 sock n =
      ({ st1 with noteRooms := mapSet st1.noteRooms n { room with users := upsertUser room.users sock.user sock.id } },
       upsertUser room.users sock.user sock.id) := by
  simp only [joinInsert, hg, Option.getD_some]

theorem joinInsert_eq_none (st1 : ServerState) (sock : Socket) (n : String)
    (hg : mapGet st1.noteRooms n = none) :
    joinInsert st1 sock n =
      ({ st1 with noteRooms := mapSet (mapSet st1.noteRooms n ⟨n, []⟩) n ⟨n, upsertUser [] sock.user sock.id⟩ },
       upsertUser [] sock.user sock.id) := by
  simp only [joinInsert, hg, mapGet_mapSet_self, Option.getD_some]

theorem joinNote_eq_denied (st : ServerState) (sock : Socket) (n : String)
    (note? : Option Note) (h : joinDenied note? sock.user.userId = true) :
    joinNote st sock n note? =
      (st, sock, [Emit.toSocket sock.id (Payload.errorMsg "Access denied to this note")]) := by
  simp only [joinNote, h, if_true]

theorem joinNote_eq_allowed (st : ServerState) (sock : Socket) (n : String)
    (note? : Option Note) (h : joinDenied note? sock.user.userId = false) :
    joinNote st sock n note? =
      ((joinInsert (leaveAllNoteRooms st sock).1 sock n).1,
       { (leaveAllNoteRooms st sock).2.1 with rooms := (if noteRoomName n ∈ (leaveAllNoteRooms st sock).2.1.rooms then (leaveAllNoteRooms st sock).2.1.rooms else (leaveAllNoteRooms st sock).2.1.rooms ++ [noteRoomName n]) },
       (leaveAllNoteRooms st sock).2.2 ++
       [Emit.toRoomExceptSender (noteRoomName n) sock.id (Payload.userJoined sock.user.identity (roster (joinInsert (leaveAllNoteRooms st sock).1 sock n).2)),
        Emit.toSocket sock.id (Payload.joinedNote n (roster (joinInsert (leaveAllNoteRooms st sock).1 sock n).2))]) := by
  simp only [joinNote, h, Bool.false_eq_true, if_false]

theorem joinInsert_snd (st1 : ServerState) (sock : Socket) (n : String) :
    (joinInsert st1 sock n).2 =
      upsertUser (getActiveUsersInNote st1 n) sock.user sock.id := by
  cases hg : mapGet st1.noteRooms n with
  | none =>
    rw [joinInsert_eq_none st1 sock n hg, getActiveUsersInNote_of_none st1 n hg]
  | some room =>
    rw [joinInsert_eq_some st1 sock n room hg,
      getActiveUsersInNote_of_some st1 n room hg]

theorem joinInsert_get_self (st1 : ServerState) (sock : Socket) (n : String) :
    getActiveUsersInNote (joinInsert st1 sock n).1 n =
      (joinInsert st1 sock n).2 := by
  cases hg : mapGet st1.noteRooms n with
  | none =>
    rw [joinInsert_eq_none st1 sock n hg]
    exact getActiveUsersInNote_of_some
      { st1 with noteRooms := mapSet (mapSet st1.noteRooms n ⟨n, []⟩) n ⟨n, upsertUser [] sock.user sock.id⟩ }
      n ⟨n, upsertUser [] sock.user sock.id⟩ (mapGet_mapSet_self _ _ _)
  | some room =>
    rw [joinInsert_eq_some st1 sock n room hg]
    exact getActiveUsersInNote_of_some
      { st1 with noteRooms := mapSet st1.noteRooms n { room with users := upsertUser room.users sock.user sock.id } }
      n { room with users := upsertUser room.users sock.user sock.id }
      (mapGet_mapSet_self _ _ _)

theorem joinInsert_get_ne (st1 : ServerState) (sock : Socket) (n k : String)
    (hk : k ≠ n) :
    mapGet (joinInsert st1 sock n).1.noteRooms k = mapGet st1.noteRooms k := by
  have hnk : n ≠ k := Ne.symm hk
  cases hg : mapGet st1.noteRooms n with
  | none =>
    rw [joinInsert_eq_none st1 sock n hg]
    show mapGet (mapSet (mapSet st1.noteRooms n ⟨n, []⟩) n ⟨n, upsertUser [] sock.user sock.id⟩) k = mapGet st1.noteRooms k
    rw [mapGet_mapSet_ne _ n _ k hnk, mapGet_mapSet_ne _ n _ k hnk]
  | some room =>
    rw [joinInsert_eq_some st1 sock n room hg]
    show mapGet (mapSet st1.noteRooms n { room with users := upsertUser room.users sock.user sock.id }) k = mapGet st1.noteRooms k
    rw [mapGet_mapSet_ne _ n _ k hnk]

/-! ### The room-table invariant and its preservation -/

/-- The room-table invariant: keys of the noteRooms map are distinct, every
stored room has a nonempty member list, and no userId occurs twice in one
member list. -/
def StateInv (st : ServerState) : Prop :=
  (st.noteRooms.map Prod.fst).Nodup ∧
  ∀ k room, mapGet st.noteRooms k = some room →
    room.users ≠ [] ∧ (room.users.map SocketUser.userId).Nodup

theorem stateInv_initial : StateInv initialState := by
  constructor
  · simp [initialState]
  · intro k room h
    simp [initialState, mapGet] at h

theorem handleUserLeaveRoom_inv (n uid : String) (st : ServerState)
    (h : StateInv st) : StateInv (handleUserLeaveRoom n uid st).1 := by
  cases hg : mapGet st.noteRooms n with
  | none =>
    rw [handleUserLeaveRoom_eq_none n uid st hg]
    exact h
  | some room =>
    by_cases hl : room.users.filter (fun u => u.userId ≠ uid) = []
    · rw [handleUserLeaveRoom_eq_del n uid st room hg hl]
      refine ⟨?_, ?_⟩
      · show ((mapDelete st.noteRooms n).map Prod.fst).Nodup
        exact h.1.sublist ((mapDelete_sublist st.noteRooms n).map Prod.fst)
      · intro k room2 hk
        have hk2 : mapGet (mapDelete st.noteRooms n) k = some room2 := hk
        by_cases hkn : k = n
        · subst hkn
          rw [mapGet_mapDelete_self st.noteRooms k h.1] at hk2
          cases hk2
        · rw [mapGet_mapDelete_ne st.noteRooms n k hkn] at hk2
          exact h.2 k room2 hk2
    · rw [handleUserLeaveRoom_eq_set n uid st room hg hl]
      refine ⟨?_, ?_⟩
      · show ((mapSet st.noteRooms n { room with users := room.users.filter (fun u => u.userId ≠ uid) }).map Prod.fst).Nodup
        rw [keys_mapSet, if_pos (mem_keys_of_mapGet st.noteRooms n room hg)]
        exact h.1
      · intro k room2 hk
        have hk2 : mapGet (mapSet st.noteRooms n { room with users := room.users.filter (fun u => u.userId ≠ uid) }) k = some room2 := hk
        by_cases hkn : k = n
        · subst hkn
          rw [mapGet_mapSet_self] at hk2
          obtain rfl : ({ room with users := room.users.filter (fun u => u.userId ≠ uid) } : NoteRoom) = room2 := by
            injection hk2
          refine ⟨hl, ?_⟩
          exact ((h.2 k room hg).2).sublist
            ((List.filter_sublist room.users).map SocketUser.userId)
        · rw [mapGet_mapSet_ne st.noteRooms n _ k (fun hh => hkn hh.symm)] at hk2
          exact h.2 k room2 hk2

theorem joinInsert_inv (st1 : ServerState) (sock : Socket) (n : String)
    (h : StateInv st1) : StateInv (joinInsert st1 sock n).1 := by
  cases hg : mapGet st1.noteRooms n with
  | some room =>
    rw [joinInsert_eq_some st1 sock n room hg]
    refine ⟨?_, ?_⟩
    · show ((mapSet st1.noteRooms n { room with users := upsertUser room.users sock.user sock.id }).map Prod.fst).Nodup
      rw [keys_mapSet, if_pos (mem_keys_of_mapGet st1.noteRooms n room hg)]
      exact h.1
    · intro k room2 hk
      have hk2 : mapGet (mapSet st1.noteRooms n { room with users := upsertUser room.users sock.user sock.id }) k = some room2 := hk
      by_cases hkn : k = n
      · subst hkn
        rw [mapGet_mapSet_self] at hk2
        obtain rfl : ({ room with users := upsertUser room.users sock.user sock.id } : NoteRoom) = room2 := by
          injection hk2
        exact ⟨upsertUser_ne_nil _ _ _,
          nodup_userIds_upsertUser _ _ _ (h.2 k room hg).2⟩
      · rw [mapGet_mapSet_ne st1.noteRooms n _ k (fun hh => hkn hh.symm)] at hk2
        exact h.2 k room2 hk2
  | none =>
    rw [joinInsert_eq_none st1 sock n hg]
    have hnotmem := not_mem_keys_of_mapGet_none st1.noteRooms n hg
    refine ⟨?_, ?_⟩
    · show ((mapSet (mapSet st1.noteRooms n ⟨n, []⟩) n ⟨n, upsertUser [] sock.user sock.id⟩).map Prod.fst).Nodup
      rw [keys_mapSet]
      rw [if_pos]
      · rw [keys_mapSet, if_neg hnotmem]
        simp [List.nodup_append, h.1, hnotmem]
      · rw [keys_mapSet, if_neg hnotmem]
        simp
    · intro k room2 hk
      have hk2 : mapGet (mapSet (mapSet st1.noteRooms n ⟨n, []⟩) n ⟨n, upsertUser [] sock.user sock.id⟩) k = some room2 := hk
      by_cases hkn : k = n
      · subst hkn
        rw [mapGet_mapSet_self] at hk2
        obtain rfl : (⟨k, upsertUser [] sock.user sock.id⟩ : NoteRoom) = room2 := by
          injection hk2
        exact ⟨upsertUser_ne_nil _ _ _, by simp [upsertUser]⟩
      · rw [mapGet_mapSet_ne _ n _ k (fun hh => hkn hh.symm),
          mapGet_mapSet_ne _ n _ k (fun hh => hkn hh.symm)] at hk2
        exact h.2 k room2 hk2

theorem leaveStep_inv (uid : String) (acc : ServerState × Socket × List Emit)
    (r : String) (h : StateInv acc.1) : StateInv (leaveStep uid acc r).1 := by
  by_cases hr : isNoteRoom r
  · simp only [leaveStep, hr, if_true]
    exact handleUserLeaveRoom_inv _ _ _ h
  · simp only [leaveStep, hr, Bool.false_eq_true, if_false]
    exact h

theorem foldl_leaveStep_inv (uid : String) (l : List String) :
    ∀ acc : ServerState × Socket × List Emit, StateInv acc.1 →
      StateInv (l.foldl (leaveStep uid) acc).1 := by
  induction l with
  | nil => intro acc h; exact h
  | cons r rest ih =>
    intro acc h
    exact ih _ (leaveStep_inv uid acc r h)

theorem discStep_inv (uid : String) (acc : ServerState × List Emit)
    (r : String) (h : StateInv acc.1) : StateInv (discStep uid acc r).1 := by
  by_cases hr : isNoteRoom r
  · simp only [discStep, hr, if_true]
    exact handleUserLeaveRoom_inv _ _ _ h
  · simp only [discStep, hr, Bool.false_eq_true, if_false]
    exact h

theorem foldl_discStep_inv (uid : String) (l : List String) :
    ∀ acc : ServerState × List Emit, StateInv acc.1 →
      StateInv (l.foldl (discStep uid) acc).1 := by
  induction l with
  | nil => intro acc h; exact h
  | cons r rest ih =>
    intro acc h
    exact ih _ (discStep_inv uid acc r h)

theorem joinNote_inv (st : ServerState) (sock : Socket) (n : String)
    (note? : Option Note) (h : StateInv st) :
    StateInv (joinNote st sock n note?).1 := by
  cases hd : joinDenied note? sock.user.userId with
  | true =>
    rw [joinNote_eq_denied st sock n note? hd]
    exact h
  | false =>
    rw [joinNote_eq_allowed st sock n note? hd]
    exact joinInsert_inv _ _ _
      (foldl_leaveStep_inv sock.user.userId _ (st, sock, []) h)

theorem leaveNote_inv (st : ServerState) (sock : Socket) (n : String)
    (h : StateInv st) : StateInv (leaveNote st sock n).1 :=
  handleUserLeaveRoom_inv n sock.user.userId st h

theorem disconnect_inv (st : ServerState) (sock : Socket)
    (h : StateInv st) : StateInv (disconnect st sock).1 :=
  foldl_discStep_inv sock.user.userId
    (sock.rooms.filter (fun r => r ≠ sock.id)) (st, []) h

theorem applyOp_inv (st : ServerState) (op : Op) (h : StateInv st) :
    StateInv (applyOp st op) := by
  cases op with
  | join sock n note? => exact joinNote_inv st sock n note? h
  | leave sock n => exact leaveNote_inv st sock n h
  | disc sock => exact disconnect_inv st sock h
  | update sock n content title note? =>
    show StateInv (noteUpdate st sock n content title note?).1
    by_cases hd : updateDenied note? sock.user.userId = true <;>
      simp only [noteUpdate, hd, Bool.false_eq_true, if_true, if_false] <;>
      exact h
  | cursor sock n pos sel => exact h

theorem run_inv (ops : List Op) : ∀ st : ServerState, StateInv st →
    StateInv (run st ops) := by
  induction ops with
  | nil => intro st h; exact h
  | cons op rest ih =>
    intro st h
    exact ih _ (applyOp_inv st op h)


/-! ### Claim theorems -/

/-- Claim C9: for every note and every required level, the authorization
check returns true when the requesting userId equals the owner of the note,
regardless of the contents of the collaborators list. -/
theorem owner_always_authorized (note : Note) (uid : String) (role : Role)
    (h : note.owner = uid) : note.isUserAuthorized uid role = true := by
  simp [Note.isUserAuthorized, h]

theorem owner_always_authorized_witness :
    (⟨"u1", [⟨"u2", Role.read⟩]⟩ : Note).isUserAuthorized "u1" Role.write = true :=
  owner_always_authorized ⟨"u1", [⟨"u2", Role.read⟩]⟩ "u1" Role.write rfl

/-- Claim C4: an authorization refusal on join or on note-update leaves the
room table, the userSockets map and the socket untouched, and reports a
single error payload to the originating connection only. -/
theorem auth_denied_no_mutation (st : ServerState) (sock : Socket)
    (n content : String) (title : Option String) (note? : Option Note) :
    (joinDenied note? sock.user.userId = true →
      joinNote st sock n note? =
        (st, sock, [Emit.toSocket sock.id (Payload.errorMsg "Access denied to this note")])) ∧
    (updateDenied note? sock.user.userId = true →
      noteUpdate st sock n content title note? =
        (st, [Emit.toSocket sock.id (Payload.errorMsg "Write access denied")])) := by
  constructor
  · intro h
    exact joinNote_eq_denied st sock n note? h
  · intro h
    simp only [noteUpdate, h, if_true]

theorem auth_denied_no_mutation_witness :
    joinNote ⟨[], []⟩ ⟨"s1", ⟨"u1", "alice", "a@x"⟩, ["s1"]⟩ "n1" none =
      (⟨[], []⟩, ⟨"s1", ⟨"u1", "alice", "a@x"⟩, ["s1"]⟩,
       [Emit.toSocket "s1" (Payload.errorMsg "Access denied to this note")]) ∧
    noteUpdate ⟨[], []⟩ ⟨"s1", ⟨"u1", "alice", "a@x"⟩, ["s1"]⟩ "n1" "hi" none none =
      (⟨[], []⟩, [Emit.toSocket "s1" (Payload.errorMsg "Write access denied")]) :=
  ⟨(auth_denied_no_mutation ⟨[], []⟩ ⟨"s1", ⟨"u1", "alice", "a@x"⟩, ["s1"]⟩ "n1" "hi" none none).1 rfl,
   (auth_denied_no_mutation ⟨[], []⟩ ⟨"s1", ⟨"u1", "alice", "a@x"⟩, ["s1"]⟩ "n1" "hi" none none).2 rfl⟩

/-- Claim C10: a join whose noteId resolves to no note is rejected exactly
like an authorization refusal: the same single error payload goes to the
requester, nothing is mutated, and the two cases are indistinguishable. -/
theorem join_missing_note_indistinguishable (st : ServerState) (sock : Socket)
    (n : String) (note : Note)
    (h : note.isUserAuthorized sock.user.userId Role.read = false) :
    joinNote st sock n (some note) = joinNote st sock n none ∧
    joinNote st sock n none =
      (st, sock, [Emit.toSocket sock.id (Payload.errorMsg "Access denied to this note")]) := by
  have h1 : joinDenied (some note) sock.user.userId = true := by
    simp [joinDenied, h]
  have h2 : joinDenied none sock.user.userId = true := rfl
  rw [joinNote_eq_denied st sock n (some note) h1,
    joinNote_eq_denied st sock n none h2]
  exact ⟨rfl, rfl⟩

theorem join_missing_note_indistinguishable_witness :
    joinNote ⟨[], []⟩ ⟨"s1", ⟨"u1", "alice", "a@x"⟩, ["s1"]⟩ "n1" (some ⟨"u2", []⟩) =
      joinNote ⟨[], []⟩ ⟨"s1", ⟨"u1", "alice", "a@x"⟩, ["s1"]⟩ "n1" none ∧
    joinNote ⟨[], []⟩ ⟨"s1", ⟨"u1", "alice", "a@x"⟩, ["s1"]⟩ "n1" none =
      (⟨[], []⟩, ⟨"s1", ⟨"u1", "alice", "a@x"⟩, ["s1"]⟩,
       [Emit.toSocket "s1" (Payload.errorMsg "Access denied to this note")]) :=
  join_missing_note_indistinguishable ⟨[], []⟩ ⟨"s1", ⟨"u1", "alice", "a@x"⟩, ["s1"]⟩ "n1" ⟨"u2", []⟩ (by decide)

/-- Claim C8 counterexample: two states whose room rosters agree on the
userId/username projection but differ in the stored connection id give
different getActiveUsersInNote results, and the returned records expose the
connection id, so the query does not return bare identity pairs. -/
theorem getPresence_exposes_socketId :
    roster (getActiveUsersInNote ⟨[("n1", ⟨"n1", [⟨"u1", "alice", "s1"⟩]⟩)], []⟩ "n1") =
      roster (getActiveUsersInNote ⟨[("n1", ⟨"n1", [⟨"u1", "alice", "s2"⟩]⟩)], []⟩ "n1") ∧
    getActiveUsersInNote ⟨[("n1", ⟨"n1", [⟨"u1", "alice", "s1"⟩]⟩)], []⟩ "n1" ≠
      getActiveUsersInNote ⟨[("n1", ⟨"n1", [⟨"u1", "alice", "s2"⟩]⟩)], []⟩ "n1" ∧
    (getActiveUsersInNote ⟨[("n1", ⟨"n1", [⟨"u1", "alice", "s1"⟩]⟩)], []⟩ "n1").map SocketUser.socketId = ["s1"] := by
  decide

/-- Claim C8 amended: getActiveUsersInNote returns the raw stored member
records, connection id included: the full record list of the room when the
room exists and the empty list otherwise; the userId/username projection of
the result is the room roster. -/
theorem getActiveUsers_raw_records (st : ServerState) (n : String) :
    (∀ room, mapGet st.noteRooms n = some room →
      getActiveUsersInNote st n = room.users ∧
      roster (getActiveUsersInNote st n) = roster room.users) ∧
    (mapGet st.noteRooms n = none → getActiveUsersInNote st n = []) := by
  constructor
  · intro room h
    exact ⟨getActiveUsersInNote_of_some st n room h,
      by rw [getActiveUsersInNote_of_some st n room h]⟩
  · intro h
    exact getActiveUsersInNote_of_none st n h

theorem getActiveUsers_raw_records_witness :
    getActiveUsersInNote ⟨[("n1", ⟨"n1", [⟨"u1", "alice", "s1"⟩]⟩)], []⟩ "n1" =
      [⟨"u1", "alice", "s1"⟩] ∧
    roster (getActiveUsersInNote ⟨[("n1", ⟨"n1", [⟨"u1", "alice", "s1"⟩]⟩)], []⟩ "n1") =
      roster [⟨"u1", "alice", "s1"⟩] :=
  (getActiveUsers_raw_records ⟨[("n1", ⟨"n1", [⟨"u1", "alice", "s1"⟩]⟩)], []⟩ "n1").1
    ⟨"n1", [⟨"u1", "alice", "s1"⟩]⟩ (by decide)

/-- Claim C2 counterexample: a sender that is not a member of room n1 but
holds write authorization gets its note-update broadcast into the room with
no error, and its cursor-update is broadcast with no check at all: there is
no NotInRoom rejection. -/
theorem update_without_membership_broadcasts :
    memberIds ⟨[("n1", ⟨"n1", [⟨"u2", "bob", "s2"⟩]⟩)], []⟩ "n1" = ["u2"] ∧
    noteUpdate ⟨[("n1", ⟨"n1", [⟨"u2", "bob", "s2"⟩]⟩)], []⟩ ⟨"s9", ⟨"u9", "carol", "c@x"⟩, ["s9"]⟩ "n1" "hi" none (some ⟨"u9", []⟩) =
      (⟨[("n1", ⟨"n1", [⟨"u2", "bob", "s2"⟩]⟩)], []⟩,
       [Emit.toRoomExceptSender (noteRoomName "n1") "s9" (Payload.noteUpdated "n1" "hi" none ⟨"u9", "carol"⟩)]) ∧
    cursorUpdate ⟨[("n1", ⟨"n1", [⟨"u2", "bob", "s2"⟩]⟩)], []⟩ ⟨"s9", ⟨"u9", "carol", "c@x"⟩, ["s9"]⟩ "n1" 3 none =
      (⟨[("n1", ⟨"n1", [⟨"u2", "bob", "s2"⟩]⟩)], []⟩,
       [Emit.toRoomExceptSender (noteRoomName "n1") "s9" (Payload.cursorUpdated ⟨"u9", "carol"⟩ 3 none)]) := by
  decide

/-- Claim C2 amended: neither update handler checks room membership: a
write-authorized note-update from a non-member is broadcast to the room
minus the sender with no error and no state change, and a cursor-update
from a non-member is always broadcast; only a write-authorization failure
is rejected, with a single error to the sender. -/
theorem update_no_membership_check (st : ServerState) (sock : Socket)
    (n content : String) (title : Option String) (note? : Option Note)
    (pos : Int) (sel : Option (Int × Int))
    (hmem : sock.user.userId ∉ memberIds st n) :
    (updateDenied note? sock.user.userId = false →
      noteUpdate st sock n content title note? =
        (st, [Emit.toRoomExceptSender (noteRoomName n) sock.id
          (Payload.noteUpdated n content title sock.user.identity)])) ∧
    cursorUpdate st sock n pos sel =
      (st, [Emit.toRoomExceptSender (noteRoomName n) sock.id
        (Payload.cursorUpdated sock.user.identity pos sel)]) := by
  constructor
  · intro h
    simp only [noteUpdate, h, Bool.false_eq_true, if_false]
  · rfl

theorem update_no_membership_check_witness :
    noteUpdate ⟨[("n1", ⟨"n1", [⟨"u2", "bob", "s2"⟩]⟩)], []⟩ ⟨"s9", ⟨"u9", "carol", "c@x"⟩, ["s9"]⟩ "n1" "hi" none (some ⟨"u9", []⟩) =
      (⟨[("n1", ⟨"n1", [⟨"u2", "bob", "s2"⟩]⟩)], []⟩,
       [Emit.toRoomExceptSender (noteRoomName "n1") "s9" (Payload.noteUpdated "n1" "hi" none ⟨"u9", "carol"⟩)]) ∧
    cursorUpdate ⟨[("n1", ⟨"n1", [⟨"u2", "bob", "s2"⟩]⟩)], []⟩ ⟨"s9", ⟨"u9", "carol", "c@x"⟩, ["s9"]⟩ "n1" 3 none =
      (⟨[("n1", ⟨"n1", [⟨"u2", "bob", "s2"⟩]⟩)], []⟩,
       [Emit.toRoomExceptSender (noteRoomName "n1") "s9" (Payload.cursorUpdated ⟨"u9", "carol"⟩ 3 none)]) :=
  ⟨(update_no_membership_check ⟨[("n1", ⟨"n1", [⟨"u2", "bob", "s2"⟩]⟩)], []⟩ ⟨"s9", ⟨"u9", "carol", "c@x"⟩, ["s9"]⟩ "n1" "hi" none (some ⟨"u9", []⟩) 3 none (by decide)).1 (by decide),
   (update_no_membership_check ⟨[("n1", ⟨"n1", [⟨"u2", "bob", "s2"⟩]⟩)], []⟩ ⟨"s9", ⟨"u9", "carol", "c@x"⟩, ["s9"]⟩ "n1" "hi" none (some ⟨"u9", []⟩) 3 none (by decide)).2⟩

/-- Claim C3 counterexample: a leave by a user that is not in room n1
leaves the state and the socket unchanged but still broadcasts a user-left
naming that user to the room, so the broadcast set is not empty. -/
theorem leave_nonmember_spurious_broadcast :
    memberIds ⟨[("n1", ⟨"n1", [⟨"u2", "bob", "s2"⟩]⟩)], []⟩ "n1" = ["u2"] ∧
    leaveNote ⟨[("n1", ⟨"n1", [⟨"u2", "bob", "s2"⟩]⟩)], []⟩ ⟨"sA", ⟨"uA", "alice", "a@x"⟩, ["sA"]⟩ "n1" =
      (⟨[("n1", ⟨"n1", [⟨"u2", "bob", "s2"⟩]⟩)], []⟩,
       ⟨"sA", ⟨"uA", "alice", "a@x"⟩, ["sA"]⟩,
       [Emit.toRoom (noteRoomName "n1") (Payload.userLeft "uA" [⟨"u2", "bob"⟩])]) := by
  decide

/-- Claim C3 amended: in any state satisfying the room-table invariant, a
leave by a non-member leaves the server state unchanged and only filters
the transport room out of the socket; it is fully silent when no such room
exists, but when the room exists it still emits a user-left broadcast
naming the non-member together with the unchanged roster. -/
theorem leave_nonmember_state_unchanged (st : ServerState) (sock : Socket)
    (n : String) (hinv : StateInv st)
    (hmem : sock.user.userId ∉ memberIds st n) :
    (leaveNote st sock n).1 = st ∧
    (leaveNote st sock n).2.1 =
      { sock with rooms := sock.rooms.filter (fun x => x ≠ noteRoomName n) } ∧
    (leaveNote st sock n).2.2 =
      (match mapGet st.noteRooms n with
       | none => []
       | some room =>
         [Emit.toRoom (noteRoomName n)
           (Payload.userLeft sock.user.userId (roster room.users))]) := by
  cases hg : mapGet st.noteRooms n with
  | none =>
    unfold leaveNote
    rw [handleUserLeaveRoom_eq_none n sock.user.userId st hg]
    exact ⟨rfl, rfl, rfl⟩
  | some room =>
    have hne : room.users ≠ [] := (hinv.2 n room hg).1
    have hmem2 : sock.user.userId ∉ room.users.map SocketUser.userId := by
      unfold memberIds at hmem
      rw [getActiveUsersInNote_of_some st n room hg] at hmem
      exact hmem
    have hfil : room.users.filter (fun u => u.userId ≠ sock.user.userId) = room.users :=
      filter_userId_eq_self room.users sock.user.userId hmem2
    have hfilne : room.users.filter (fun u => u.userId ≠ sock.user.userId) ≠ [] := by
      rw [hfil]
      exact hne
    unfold leaveNote
    rw [handleUserLeaveRoom_eq_set n sock.user.userId st room hg hfilne]
    refine ⟨?_, rfl, ?_⟩
    · show ({ st with noteRooms := mapSet st.noteRooms n { room with users := room.users.filter (fun u => u.userId ≠ sock.user.userId) } } : ServerState) = st
      rw [hfil]
      have hroom : ({ room with users := room.users } : NoteRoom) = room := rfl
      rw [hroom, mapSet_eq_self st.noteRooms n room hg]
    · show [Emit.toRoom (noteRoomName n) (Payload.userLeft sock.user.userId (roster (room.users.filter (fun u => u.userId ≠ sock.user.userId))))] = _
      rw [hfil]

theorem leave_nonmember_state_unchanged_witness :
    (leaveNote (run initialState [Op.join ⟨"s2", ⟨"u2", "bob", "b@x"⟩, ["s2"]⟩ "n1" (some ⟨"u2", []⟩)]) ⟨"sA", ⟨"uA", "alice", "a@x"⟩, ["sA"]⟩ "n1").1 =
      run initialState [Op.join ⟨"s2", ⟨"u2", "bob", "b@x"⟩, ["s2"]⟩ "n1" (some ⟨"u2", []⟩)] ∧
    (leaveNote (run initialState [Op.join ⟨"s2", ⟨"u2", "bob", "b@x"⟩, ["s2"]⟩ "n1" (some ⟨"u2", []⟩)]) ⟨"sA", ⟨"uA", "alice", "a@x"⟩, ["sA"]⟩ "n1").2.1 =
      { (⟨"sA", ⟨"uA", "alice", "a@x"⟩, ["sA"]⟩ : Socket) with rooms := (["sA"] : List String).filter (fun x => x ≠ noteRoomName "n1") } ∧
    (leaveNote (run initialState [Op.join ⟨"s2", ⟨"u2", "bob", "b@x"⟩, ["s2"]⟩ "n1" (some ⟨"u2", []⟩)]) ⟨"sA", ⟨"uA", "alice", "a@x"⟩, ["sA"]⟩ "n1").2.2 =
      (match mapGet (run initialState [Op.join ⟨"s2", ⟨"u2", "bob", "b@x"⟩, ["s2"]⟩ "n1" (some ⟨"u2", []⟩)]).noteRooms "n1" with
       | none => []
       | some room =>
         [Emit.toRoom (noteRoomName "n1") (Payload.userLeft "uA" (roster room.users))]) :=
  leave_nonmember_state_unchanged
    (run initialState [Op.join ⟨"s2", ⟨"u2", "bob", "b@x"⟩, ["s2"]⟩ "n1" (some ⟨"u2", []⟩)])
    ⟨"sA", ⟨"uA", "alice", "a@x"⟩, ["sA"]⟩ "n1"
    (run_inv _ _ stateInv_initial) (by decide)


/-- Claim C5: after any finite sequence of inbound events starting from the
empty initial state, the room table stores no room with an empty member
list. -/
theorem no_empty_rooms (ops : List Op) (k : String) (room : NoteRoom)
    (h : mapGet (run initialState ops).noteRooms k = some room) :
    room.users ≠ [] :=
  ((run_inv ops initialState stateInv_initial).2 k room h).1

theorem no_empty_rooms_witness :
    (⟨"n1", [⟨"u1", "alice", "s1"⟩]⟩ : NoteRoom).users ≠ [] :=
  no_empty_rooms [Op.join ⟨"s1", ⟨"u1", "alice", "a@x"⟩, ["s1"]⟩ "n1" (some ⟨"u1", []⟩)]
    "n1" ⟨"n1", [⟨"u1", "alice", "s1"⟩]⟩ (by decide)

/-- Claim C6: room membership is keyed by userId: after any event sequence
from the initial state no userId occurs twice in one room, and a rejoin of
the same room by a user already present, arriving on a fresh connection,
overwrites the stored connection id in place, leaving the roster entries
and the member count unchanged. -/
theorem membership_keyed_by_userId :
    (∀ (ops : List Op) (k : String) (room : NoteRoom),
      mapGet (run initialState ops).noteRooms k = some room →
      (room.users.map SocketUser.userId).Nodup) ∧
    (∀ (st : ServerState) (sock : Socket) (n : String) (note? : Option Note)
        (room : NoteRoom),
      joinDenied note? sock.user.userId = false →
      sock.rooms = [sock.id] →
      mapGet st.noteRooms n = some room →
      sock.user.userId ∈ room.users.map SocketUser.userId →
      (room.users.map SocketUser.userId).Nodup →
      getActiveUsersInNote (joinNote st sock n note?).1 n =
        room.users.map (fun u =>
          if u.userId = sock.user.userId then { u with socketId := sock.id } else u) ∧
      (getActiveUsersInNote (joinNote st sock n note?).1 n).length =
        room.users.length) := by
  constructor
  · intro ops k room h
    exact ((run_inv ops initialState stateInv_initial).2 k room h).2
  · intro st sock n note? room hden hrooms hg hmem hnd
    have hfl : sock.rooms.filter (fun r => r ≠ sock.id) = [] := by
      rw [hrooms]
      simp
    have hlv : leaveAllNoteRooms st sock = (st, sock, []) := by
      unfold leaveAllNoteRooms
      rw [hfl]
      rfl
    have h1 : (joinNote st sock n note?).1 = (joinInsert st sock n).1 := by
      rw [joinNote_eq_allowed st sock n note? hden, hlv]
    have hmembers : getActiveUsersInNote (joinNote st sock n note?).1 n =
        room.users.map (fun u =>
          if u.userId = sock.user.userId then { u with socketId := sock.id } else u) := by
      rw [h1, joinInsert_get_self st sock n, joinInsert_snd st sock n,
        getActiveUsersInNote_of_some st n room hg,
        upsertUser_of_mem room.users sock.user sock.id hmem hnd]
    refine ⟨hmembers, ?_⟩
    rw [hmembers]
    exact List.length_map _ _

theorem membership_keyed_by_userId_witness :
    getActiveUsersInNote (joinNote ⟨[("n1", ⟨"n1", [⟨"u1", "alice", "sOld"⟩]⟩)], []⟩ ⟨"sNew", ⟨"u1", "alice", "a@x"⟩, ["sNew"]⟩ "n1" (some ⟨"u1", []⟩)).1 "n1" =
      ([⟨"u1", "alice", "sOld"⟩] : List SocketUser).map (fun u =>
        if u.userId = "u1" then { u with socketId := "sNew" } else u) ∧
    (getActiveUsersInNote (joinNote ⟨[("n1", ⟨"n1", [⟨"u1", "alice", "sOld"⟩]⟩)], []⟩ ⟨"sNew", ⟨"u1", "alice", "a@x"⟩, ["sNew"]⟩ "n1" (some ⟨"u1", []⟩)).1 "n1").length =
      ([⟨"u1", "alice", "sOld"⟩] : List SocketUser).length :=
  membership_keyed_by_userId.2
    ⟨[("n1", ⟨"n1", [⟨"u1", "alice", "sOld"⟩]⟩)], []⟩
    ⟨"sNew", ⟨"u1", "alice", "a@x"⟩, ["sNew"]⟩ "n1" (some ⟨"u1", []⟩)
    ⟨"n1", [⟨"u1", "alice", "sOld"⟩]⟩
    (by decide) rfl (by decide) (by decide) (by decide)

/-- Claim C7: a successful join emits, after the switch-leave
notifications, exactly one user-joined broadcast addressed to the room
minus the joiner and one private joined acknowledgement addressed to the
joining connection alone, and both carry the same member list: the
userId/username roster of the room membership as it stands after the
insertion. -/
theorem join_notifications (st : ServerState) (sock : Socket) (n : String)
    (note? : Option Note) (h : joinDenied note? sock.user.userId = false) :
    (joinNote st sock n note?).2.2 =
      (leaveAllNoteRooms st sock).2.2 ++
      [Emit.toRoomExceptSender (noteRoomName n) sock.id
        (Payload.userJoined sock.user.identity
          (roster (getActiveUsersInNote (joinNote st sock n note?).1 n))),
       Emit.toSocket sock.id
        (Payload.joinedNote n
          (roster (getActiveUsersInNote (joinNote st sock n note?).1 n)))] := by
  have hm : getActiveUsersInNote (joinNote st sock n note?).1 n =
      (joinInsert (leaveAllNoteRooms st sock).1 sock n).2 := by
    rw [joinNote_eq_allowed st sock n note? h]
    exact joinInsert_get_self _ _ _
  rw [hm, joinNote_eq_allowed st sock n note? h]

theorem join_notifications_witness :
    (joinNote ⟨[], []⟩ ⟨"s1", ⟨"u1", "alice", "a@x"⟩, ["s1"]⟩ "n1" (some ⟨"u1", []⟩)).2.2 =
      (leaveAllNoteRooms ⟨[], []⟩ ⟨"s1", ⟨"u1", "alice", "a@x"⟩, ["s1"]⟩).2.2 ++
      [Emit.toRoomExceptSender (noteRoomName "n1") "s1"
        (Payload.userJoined ⟨"u1", "alice"⟩
          (roster (getActiveUsersInNote (joinNote ⟨[], []⟩ ⟨"s1", ⟨"u1", "alice", "a@x"⟩, ["s1"]⟩ "n1" (some ⟨"u1", []⟩)).1 "n1"))),
       Emit.toSocket "s1"
        (Payload.joinedNote "n1"
          (roster (getActiveUsersInNote (joinNote ⟨[], []⟩ ⟨"s1", ⟨"u1", "alice", "a@x"⟩, ["s1"]⟩ "n1" (some ⟨"u1", []⟩)).1 "n1")))] :=
  join_notifications ⟨[], []⟩ ⟨"s1", ⟨"u1", "alice", "a@x"⟩, ["s1"]⟩ "n1" (some ⟨"u1", []⟩) (by decide)

/-- Claim C1: a connection sitting in room A that joins a different room B
with read access first completes the leave of A: in the emitted sequence
the user-left for A precedes the user-joined for B and the private joined
acknowledgement, and the user is present in neither room in the
intermediate state after the switch-leave and is present only in B in the
final state, never in both rooms at once. -/
theorem switch_room_ordering (st : ServerState) (sock : Socket)
    (A B : String) (note? : Option Note) (roomA : NoteRoom)
    (hden : joinDenied note? sock.user.userId = false)
    (hrooms : sock.rooms = [sock.id, noteRoomName A])
    (hneq : noteRoomName A ≠ sock.id)
    (hAB : A ≠ B)
    (hgA : mapGet st.noteRooms A = some roomA)
    (hmemA : sock.user.userId ∈ roomA.users.map SocketUser.userId)
    (hrem : roomA.users.filter (fun u => u.userId ≠ sock.user.userId) ≠ [])
    (hnotB : sock.user.userId ∉ memberIds st B) :
    (∃ l1 l2,
      (joinNote st sock B note?).2.2 =
        [Emit.toRoom (noteRoomName A) (Payload.userLeft sock.user.userId l1),
         Emit.toRoomExceptSender (noteRoomName B) sock.id
           (Payload.userJoined sock.user.identity l2),
         Emit.toSocket sock.id (Payload.joinedNote B l2)]) ∧
    sock.user.userId ∉ memberIds (leaveAllNoteRooms st sock).1 A ∧
    sock.user.userId ∉ memberIds (leaveAllNoteRooms st sock).1 B ∧
    sock.user.userId ∉ memberIds (joinNote st sock B note?).1 A ∧
    sock.user.userId ∈ memberIds (joinNote st sock B note?).1 B := by
  have hBA : B ≠ A := Ne.symm hAB
  have hfilter : sock.rooms.filter (fun r => r ≠ sock.id) = [noteRoomName A] := by
    rw [hrooms]
    simp [hneq]
  have hstepA := handleUserLeaveRoom_eq_set A sock.user.userId st roomA hgA hrem
  have hlv : leaveAllNoteRooms st sock =
      ((handleUserLeaveRoom A sock.user.userId st).1,
       { sock with rooms := sock.rooms.filter (fun x => x ≠ noteRoomName A) },
       (handleUserLeaveRoom A sock.user.userId st).2) := by
    unfold leaveAllNoteRooms
    rw [hfilter]
    show leaveStep sock.user.userId (st, sock, []) (noteRoomName A) = _
    unfold leaveStep
    simp only [isNoteRoom_noteRoomName, eq_self_iff_true, if_true,
      noteIdOfRoomName_noteRoomName]
    rfl
  have hmidRooms : (leaveAllNoteRooms st sock).1.noteRooms =
      mapSet st.noteRooms A { roomA with users := roomA.users.filter (fun u => u.userId ≠ sock.user.userId) } := by
    rw [hlv, hstepA]
  have hmidA : getActiveUsersInNote (leaveAllNoteRooms st sock).1 A =
      roomA.users.filter (fun u => u.userId ≠ sock.user.userId) := by
    unfold getActiveUsersInNote
    rw [hmidRooms, mapGet_mapSet_self]
  have hmidB : mapGet (leaveAllNoteRooms st sock).1.noteRooms B = mapGet st.noteRooms B := by
    rw [hmidRooms]
    exact mapGet_mapSet_ne st.noteRooms A _ B (Ne.symm hBA)
  have hnotMidA : sock.user.userId ∉ memberIds (leaveAllNoteRooms st sock).1 A := by
    unfold memberIds
    rw [hmidA]
    exact not_mem_userIds_filter roomA.users sock.user.userId
  have hnotMidB : sock.user.userId ∉ memberIds (leaveAllNoteRooms st sock).1 B := by
    unfold memberIds getActiveUsersInNote
    rw [hmidB]
    exact hnotB
  have hfin1 : (joinNote st sock B note?).1 =
      (joinInsert (leaveAllNoteRooms st sock).1 sock B).1 := by
    rw [joinNote_eq_allowed st sock B note? hden]
  refine ⟨?_, hnotMidA, hnotMidB, ?_, ?_⟩
  · refine ⟨roster (roomA.users.filter (fun u => u.userId ≠ sock.user.userId)),
      roster (joinInsert (leaveAllNoteRooms st sock).1 sock B).2, ?_⟩
    rw [joinNote_eq_allowed st sock B note? hden]
    show (leaveAllNoteRooms st sock).2.2 ++ _ = _
    rw [hlv, hstepA]
    rfl
  · unfold memberIds
    rw [hfin1]
    have hget : mapGet (joinInsert (leaveAllNoteRooms st sock).1 sock B).1.noteRooms A =
        mapGet (leaveAllNoteRooms st sock).1.noteRooms A :=
      joinInsert_get_ne (leaveAllNoteRooms st sock).1 sock B A hAB
    unfold getActiveUsersInNote
    rw [hget]
    have hgetA : mapGet (leaveAllNoteRooms st sock).1.noteRooms A =
        some { roomA with users := roomA.users.filter (fun u => u.userId ≠ sock.user.userId) } := by
      rw [hmidRooms]
      exact mapGet_mapSet_self _ _ _
    rw [hgetA]
    exact not_mem_userIds_filter roomA.users sock.user.userId
  · unfold memberIds
    rw [hfin1, joinInsert_get_self, joinInsert_snd]
    exact mem_userIds_upsertUser _ sock.user sock.id

theorem switch_room_ordering_witness :
    (∃ l1 l2,
      (joinNote ⟨[("nA", ⟨"nA", [⟨"uA", "alice", "sA"⟩, ⟨"uB", "bob", "sB"⟩]⟩)], []⟩ ⟨"sA", ⟨"uA", "alice", "a@x"⟩, ["sA", noteRoomName "nA"]⟩ "nB" (some ⟨"uA", []⟩)).2.2 =
        [Emit.toRoom (noteRoomName "nA") (Payload.userLeft "uA" l1),
         Emit.toRoomExceptSender (noteRoomName "nB") "sA"
           (Payload.userJoined ⟨"uA", "alice"⟩ l2),
         Emit.toSocket "sA" (Payload.joinedNote "nB" l2)]) ∧
    "uA" ∉ memberIds (leaveAllNoteRooms ⟨[("nA", ⟨"nA", [⟨"uA", "alice", "sA"⟩, ⟨"uB", "bob", "sB"⟩]⟩)], []⟩ ⟨"sA", ⟨"uA", "alice", "a@x"⟩, ["sA", noteRoomName "nA"]⟩).1 "nA" ∧
    "uA" ∉ memberIds (leaveAllNoteRooms ⟨[("nA", ⟨"nA", [⟨"uA", "alice", "sA"⟩, ⟨"uB", "bob", "sB"⟩]⟩)], []⟩ ⟨"sA", ⟨"uA", "alice", "a@x"⟩, ["sA", noteRoomName "nA"]⟩).1 "nB" ∧
    "uA" ∉ memberIds (joinNote ⟨[("nA", ⟨"nA", [⟨"uA", "alice", "sA"⟩, ⟨"uB", "bob", "sB"⟩]⟩)], []⟩ ⟨"sA", ⟨"uA", "alice", "a@x"⟩, ["sA", noteRoomName "nA"]⟩ "nB" (some ⟨"uA", []⟩)).1 "nA" ∧
    "uA" ∈ memberIds (joinNote ⟨[("nA", ⟨"nA", [⟨"uA", "alice", "sA"⟩, ⟨"uB", "bob", "sB"⟩]⟩)], []⟩ ⟨"sA", ⟨"uA", "alice", "a@x"⟩, ["sA", noteRoomName "nA"]⟩ "nB" (some ⟨"uA", []⟩)).1 "nB" :=
  switch_room_ordering
    ⟨[("nA", ⟨"nA", [⟨"uA", "alice", "sA"⟩, ⟨"uB", "bob", "sB"⟩]⟩)], []⟩
    ⟨"sA", ⟨"uA", "alice", "a@x"⟩, ["sA", noteRoomName "nA"]⟩
    "nA" "nB" (some ⟨"uA", []⟩) ⟨"nA", [⟨"uA", "alice", "sA"⟩, ⟨"uB", "bob", "sB"⟩]⟩
    (by decide) rfl (by decide) (by decide) (by decide) (by decide) (by decide) (by decide)

end CollabNotes
